import Mathlib

/-!
Shallow embedding of the myskl backend (TypeScript + Drizzle ORM over Postgres).

Tables are modelled as lists of rows held in a `DB` record; each HTTP route or
socket handler that the claims mention becomes a pure function from a `DB`
(plus request parameters) to a result paired with the updated `DB`.  Serial
primary keys are modelled by explicit next-id counters.  Timestamps are
modelled as natural numbers passed in as a `now` parameter where the code
calls `new Date()`; JavaScript numbers are modelled as naturals (user ids are
serial, hence positive), and the JavaScript falsiness checks `!x` on such ids
translate to `x == 0` tests.  `Math.round` applied to the non-negative
quotient `(completed / total) * 100` is floor of the value plus one half,
which over exact rationals equals the natural division
`(200 * completed + total) / (2 * total)`.
-/

namespace MySkl

deriving instance DecidableEq for Except

/-- Model of JavaScript String.prototype.trim (and of String.trim of the
runtime): drops whitespace characters from both ends of the string. -/
def jsTrim (s : String) : String :=
  ⟨((s.data.dropWhile Char.isWhitespace).reverse.dropWhile Char.isWhitespace).reverse⟩

/-- Row of the users table (the columns the verified claims need: serial id,
nullable username, nullable password hash). -/
structure User where
  id : Nat
  username : Option String
  password : Option String
deriving DecidableEq

/-- Row of the conversations table. -/
structure Conversation where
  id : Nat
  user1Id : Nat
  user2Id : Nat
  lastMessageAt : Nat
deriving DecidableEq

/-- Row of the messages table. -/
structure Message where
  id : Nat
  conversationId : Nat
  senderId : Nat
  content : String
  messageType : String
  isRead : Bool
  createdAt : Nat
deriving DecidableEq

/-- Row of the connection_requests table. -/
structure ConnectionRequest where
  id : Nat
  senderId : Nat
  receiverId : Nat
  status : String
  message : Option String
deriving DecidableEq

/-- Row of the connections table. -/
structure Connection where
  id : Nat
  user1Id : Nat
  user2Id : Nat
deriving DecidableEq

/-- Row of the roadmap_tasks table (columns the claims need). -/
structure RoadmapTask where
  id : Nat
  roadmapId : Nat
  orderIndex : Nat
deriving DecidableEq

/-- Row of the user_roadmaps table. -/
structure UserRoadmap where
  id : Nat
  userId : Nat
  roadmapId : Nat
  status : String
deriving DecidableEq

/-- Row of the user_task_progress table. -/
structure UserTaskProgress where
  id : Nat
  userId : Nat
  taskId : Nat
  userRoadmapId : Nat
  status : String
deriving DecidableEq

/-- The database state: one list per table, plus the serial id counters. -/
structure DB where
  users : List User
  conversations : List Conversation
  messages : List Message
  connectionRequests : List ConnectionRequest
  connections : List Connection
  roadmapTasks : List RoadmapTask
  userRoadmaps : List UserRoadmap
  userTaskProgress : List UserTaskProgress
  nextConversationId : Nat
  nextMessageId : Nat
  nextRequestId : Nat
  nextConnectionId : Nat
  nextUserRoadmapId : Nat
  nextProgressId : Nat
deriving DecidableEq

/-- The row filter used by POST /conversations to look the pair up in either
direction. -/
def conversationBetween (a b : Nat) (cv : Conversation) : Bool :=
  (cv.user1Id == a && cv.user2Id == b) || (cv.user1Id == b && cv.user2Id == a)

/-- POST /conversations: validates both ids are present (non-zero) and
distinct, returns an existing conversation row matching the pair in either
direction, and otherwise inserts a new row normalized as (min, max).  The
error value is the HTTP status code. -/
def getOrCreateConversation (db : DB) (user1Id user2Id now : Nat) :
    Except Nat Conversation × DB :=
  if user1Id == 0 || user2Id == 0 then (.error 400, db)
  else if user1Id == user2Id then (.error 400, db)
  else
    match db.conversations.find? (conversationBetween user1Id user2Id) with
    | some existing => (.ok existing, db)
    | none =>
      let newConversation : Conversation :=
        { id := db.nextConversationId
          user1Id := min user1Id user2Id
          user2Id := max user1Id user2Id
          lastMessageAt := now }
      (.ok newConversation,
        { db with
            conversations := db.conversations ++ [newConversation]
            nextConversationId := db.nextConversationId + 1 })

/-- POST /messages (HTTP path): validates the inputs, verifies in one query
that the conversation exists and the sender is one of its two participants
(else status 404), inserts the trimmed message, and bumps the conversation
last-message timestamp. -/
def sendMessage (db : DB) (conversationId senderId : Nat)
    (content messageType : String) (now : Nat) : Except Nat Message × DB :=
  if conversationId == 0 || senderId == 0 || jsTrim content == "" then
    (.error 400, db)
  else
    match db.conversations.find? (fun cv =>
        cv.id == conversationId &&
        (cv.user1Id == senderId || cv.user2Id == senderId)) with
    | none => (.error 404, db)
    | some _ =>
      let newMessage : Message :=
        { id := db.nextMessageId
          conversationId := conversationId
          senderId := senderId
          content := jsTrim content
          messageType := messageType
          isRead := false
          createdAt := now }
      (.ok newMessage,
        { db with
            messages := db.messages ++ [newMessage]
            conversations := db.conversations.map (fun cv =>
              if cv.id == conversationId then { cv with lastMessageAt := now }
              else cv)
            nextMessageId := db.nextMessageId + 1 })

/-- Socket send-message handler: after the authentication check (modelled as
senderId being non-zero) it saves the message directly — there is no check
that the sender participates in the conversation — and bumps the conversation
timestamp. -/
def socketSendMessage (db : DB) (conversationId senderId : Nat)
    (content : String) (now : Nat) : Except Unit Message × DB :=
  if senderId == 0 then (.error (), db)
  else
    let savedMessage : Message :=
      { id := db.nextMessageId
        conversationId := conversationId
        senderId := senderId
        content := content
        messageType := "text"
        isRead := false
        createdAt := now }
    (.ok savedMessage,
      { db with
          messages := db.messages ++ [savedMessage]
          conversations := db.conversations.map (fun cv =>
            if cv.id == conversationId then { cv with lastMessageAt := now }
            else cv)
          nextMessageId := db.nextMessageId + 1 })

/-- PUT /messages/read: marks as read every message of the conversation that
is unread and whose sender is not the calling user. -/
def markMessagesRead (db : DB) (conversationId userId : Nat) :
    Except Nat Unit × DB :=
  if conversationId == 0 || userId == 0 then (.error 400, db)
  else
    (.ok (),
      { db with
          messages := db.messages.map (fun m =>
            if m.conversationId == conversationId && m.isRead == false &&
                m.senderId != userId then
              { m with isRead := true }
            else m) })

/-- Normalization of the optional request message: `message?.trim() || null`
maps a missing or all-whitespace message to null. -/
def trimToNull (message : Option String) : Option String :=
  match message with
  | none => none
  | some s => if jsTrim s == "" then none else some (jsTrim s)

/-- POST /connections/request: validates ids, requires the receiver to exist,
rejects with 409 when a connection between the two users already exists in
either direction, rejects with 409 when a pending request already exists in
either direction, and otherwise inserts a new pending request. -/
def sendConnectionRequest (db : DB) (senderId receiverId : Nat)
    (message : Option String) : Except Nat ConnectionRequest × DB :=
  if senderId == 0 || receiverId == 0 then (.error 400, db)
  else if senderId == receiverId then (.error 400, db)
  else if (db.users.filter (fun u => u.id == receiverId)).isEmpty then
    (.error 404, db)
  else if !(db.connections.filter (fun cn =>
      (cn.user1Id == senderId && cn.user2Id == receiverId) ||
      (cn.user1Id == receiverId && cn.user2Id == senderId))).isEmpty then
    (.error 409, db)
  else if !(db.connectionRequests.filter (fun r =>
      (r.senderId == senderId && r.receiverId == receiverId &&
        r.status == "pending") ||
      (r.senderId == receiverId && r.receiverId == senderId &&
        r.status == "pending"))).isEmpty then
    (.error 409, db)
  else
    let newRequest : ConnectionRequest :=
      { id := db.nextRequestId
        senderId := senderId
        receiverId := receiverId
        status := "pending"
        message := trimToNull message }
    (.ok newRequest,
      { db with
          connectionRequests := db.connectionRequests ++ [newRequest]
          nextRequestId := db.nextRequestId + 1 })

/-- PUT /connections/accept/:requestId: looks the request up by id, checks the
caller is its receiver and the status is pending, inserts the connection with
the smaller user id first, and sets the request status to accepted. -/
def acceptConnectionRequest (db : DB) (requestId userId : Nat) :
    Except Nat Unit × DB :=
  if userId == 0 then (.error 400, db)
  else
    match db.connectionRequests.find? (fun r => r.id == requestId) with
    | none => (.error 404, db)
    | some connectionRequest =>
      if connectionRequest.receiverId != userId then (.error 403, db)
      else if connectionRequest.status != "pending" then (.error 400, db)
      else
        let user1Id := min connectionRequest.senderId connectionRequest.receiverId
        let user2Id := max connectionRequest.senderId connectionRequest.receiverId
        (.ok (),
          { db with
              connections := db.connections ++
                [{ id := db.nextConnectionId
                   user1Id := user1Id
                   user2Id := user2Id }]
              nextConnectionId := db.nextConnectionId + 1
              connectionRequests := db.connectionRequests.map (fun r =>
                if r.id == requestId then { r with status := "accepted" }
                else r) })

/-- PUT /connections/reject/:requestId: looks the request up by id, checks the
caller is its receiver and the status is pending, and sets the status to
rejected.  No connection row is touched. -/
def rejectConnectionRequest (db : DB) (requestId userId : Nat) :
    Except Nat Unit × DB :=
  if userId == 0 then (.error 400, db)
  else
    match db.connectionRequests.find? (fun r => r.id == requestId) with
    | none => (.error 404, db)
    | some connectionRequest =>
      if connectionRequest.receiverId != userId then (.error 403, db)
      else if connectionRequest.status != "pending" then (.error 400, db)
      else
        (.ok (),
          { db with
              connectionRequests := db.connectionRequests.map (fun r =>
                if r.id == requestId then { r with status := "rejected" }
                else r) })

/-- DELETE /connections/disconnect: deletes the connection rows matching the
two users in either direction; answers 404 when nothing matched. -/
def disconnectConnection (db : DB) (userId otherUserId : Nat) :
    Except Nat Unit × DB :=
  if userId == 0 || otherUserId == 0 then (.error 400, db)
  else if userId == otherUserId then (.error 400, db)
  else
    let matched := db.connections.filter (fun cn =>
      (cn.user1Id == userId && cn.user2Id == otherUserId) ||
      (cn.user1Id == otherUserId && cn.user2Id == userId))
    if matched.isEmpty then (.error 404, db)
    else
      (.ok (),
        { db with
            connections := db.connections.filter (fun cn =>
              !((cn.user1Id == userId && cn.user2Id == otherUserId) ||
                (cn.user1Id == otherUserId && cn.user2Id == userId))) })

/-- Bulk insert of the progress rows built in POST /:id/start: one row per
task, serial ids assigned in order, and the status column taking its schema
default of pending. -/
def progressEntries (userId userRoadmapId nextId : Nat) :
    List RoadmapTask → List UserTaskProgress
  | [] => []
  | t :: ts =>
    { id := nextId
      userId := userId
      taskId := t.id
      userRoadmapId := userRoadmapId
      status := "pending" } :: progressEntries userId userRoadmapId (nextId + 1) ts

/-- POST /:id/start: refuses when the user already has the roadmap, inserts
the user-roadmap row (status defaulting to active), and inserts one progress
row per task of the roadmap. -/
def startRoadmap (db : DB) (roadmapId userId : Nat) :
    Except Nat UserRoadmap × DB :=
  if !(db.userRoadmaps.filter (fun ur =>
      ur.userId == userId && ur.roadmapId == roadmapId)).isEmpty then
    (.error 400, db)
  else
    let userRoadmap : UserRoadmap :=
      { id := db.nextUserRoadmapId
        userId := userId
        roadmapId := roadmapId
        status := "active" }
    let tasks := db.roadmapTasks.filter (fun t => t.roadmapId == roadmapId)
    (.ok userRoadmap,
      { db with
          userRoadmaps := db.userRoadmaps ++ [userRoadmap]
          nextUserRoadmapId := db.nextUserRoadmapId + 1
          userTaskProgress := db.userTaskProgress ++
            progressEntries userId userRoadmap.id db.nextProgressId tasks
          nextProgressId := db.nextProgressId + tasks.length })

/-- PUT /task-progress/:id/status: sets the status column of the addressed
progress row to the given string (the route performs no validation). -/
def updateTaskStatus (db : DB) (progressId : Nat) (status : String) :
    Except Nat Unit × DB :=
  (.ok (),
    { db with
        userTaskProgress := db.userTaskProgress.map (fun p =>
          if p.id == progressId then { p with status := status } else p) })

/-- One entry of the GET /users/:userId listing, with the fields the progress
claims are about. -/
structure RoadmapProgressEntry where
  userRoadmapId : Nat
  roadmapId : Nat
  totalTasks : Nat
  completedTasks : Nat
  progressPercentage : Nat
deriving DecidableEq

/-- GET /users/:userId: for each roadmap of the user, counts the tasks of the
roadmap and the completed progress rows of the user-roadmap, and computes
`Math.round((completed / total) * 100)` when there are tasks and 0 otherwise.
Over exact rationals the rounding is floor of the value plus one half, that
is the natural division `(200 * completed + total) / (2 * total)`. -/
def listUserRoadmapProgress (db : DB) (userId : Nat) :
    List RoadmapProgressEntry :=
  (db.userRoadmaps.filter (fun ur => ur.userId == userId)).map (fun ur =>
    let totalTasks :=
      (db.roadmapTasks.filter (fun t => t.roadmapId == ur.roadmapId)).length
    let completedTasks :=
      (db.userTaskProgress.filter (fun p =>
        p.userRoadmapId == ur.id && p.status == "completed")).length
    { userRoadmapId := ur.id
      roadmapId := ur.roadmapId
      totalTasks := totalTasks
      completedTasks := completedTasks
      progressPercentage :=
        if 0 < totalTasks then (200 * completedTasks + totalTasks) / (2 * totalTasks)
        else 0 })

/-- Modelled bcrypt.compare of the bcryptjs library: comparing against a
stored hash that is not a string (the null password of a federated account)
throws, modelled as an error value; comparing against a string hash yields a
boolean through the abstract hash checker passed in. -/
def bcryptCompare (check : String → String → Bool) (password : String)
    (hash : Option String) : Except String Bool :=
  match hash with
  | none => .error "Illegal arguments"
  | some h => .ok (check password h)

/-- POST /login: validates both fields are present, looks the user up by
username, compares the password with bcrypt, and answers 200 on success,
401 on unknown username or wrong password, 400 on missing fields; any thrown
error — in particular the bcrypt comparison against a null stored password —
is caught and answered with status 500.  The return value is the HTTP status
code. -/
def login (check : String → String → Bool) (db : DB)
    (username password : String) : Nat :=
  if username == "" || password == "" then 400
  else
    match db.users.find? (fun u => u.username == some username) with
    | none => 401
    | some user =>
      match bcryptCompare check password user.password with
      | .error _ => 500
      | .ok isPasswordValid => if isPasswordValid then 200 else 401

/-- Every operation of the program that writes any table of the embedded data
model (all writes to the conversations, messages, connection_requests,
connections, user_roadmaps and user_task_progress tables occur in these
routes and socket handlers; the remaining routes write only the users,
projects, skills and file tables). -/
inductive Op where
  | opGetOrCreateConversation (user1Id user2Id now : Nat)
  | opSendMessage (conversationId senderId : Nat) (content messageType : String) (now : Nat)
  | opSocketSendMessage (conversationId senderId : Nat) (content : String) (now : Nat)
  | opMarkMessagesRead (conversationId userId : Nat)
  | opSendConnectionRequest (senderId receiverId : Nat) (message : Option String)
  | opAcceptConnectionRequest (requestId userId : Nat)
  | opRejectConnectionRequest (requestId userId : Nat)
  | opDisconnectConnection (userId otherUserId : Nat)
  | opStartRoadmap (roadmapId userId : Nat)
  | opUpdateTaskStatus (progressId : Nat) (status : String)
deriving DecidableEq

/-- State transition of one operation. -/
def applyOp (op : Op) (db : DB) : DB :=
  match op with
  | .opGetOrCreateConversation a b now => (getOrCreateConversation db a b now).2
  | .opSendMessage cid sid content mt now => (sendMessage db cid sid content mt now).2
  | .opSocketSendMessage cid sid content now => (socketSendMessage db cid sid content now).2
  | .opMarkMessagesRead cid uid => (markMessagesRead db cid uid).2
  | .opSendConnectionRequest sid rid msg => (sendConnectionRequest db sid rid msg).2
  | .opAcceptConnectionRequest rid uid => (acceptConnectionRequest db rid uid).2
  | .opRejectConnectionRequest rid uid => (rejectConnectionRequest db rid uid).2
  | .opDisconnectConnection uid oid => (disconnectConnection db uid oid).2
  | .opStartRoadmap rmid uid => (startRoadmap db rmid uid).2
  | .opUpdateTaskStatus pid status => (updateTaskStatus db pid status).2

/-- Normalization invariant of the pair tables: conversations and connections
store the smaller user id first, and connection requests relate two distinct
users. -/
def Normalized (db : DB) : Prop :=
  (∀ cv ∈ db.conversations, cv.user1Id < cv.user2Id) ∧
  (∀ cn ∈ db.connections, cn.user1Id < cn.user2Id) ∧
  (∀ r ∈ db.connectionRequests, r.senderId ≠ r.receiverId)

/-- Empty database. -/
def emptyDB : DB :=
  { users := []
    conversations := []
    messages := []
    connectionRequests := []
    connections := []
    roadmapTasks := []
    userRoadmaps := []
    userTaskProgress := []
    nextConversationId := 1
    nextMessageId := 1
    nextRequestId := 1
    nextConnectionId := 1
    nextUserRoadmapId := 1
    nextProgressId := 1 }

/-- Fixture: a local account, a Google-only account (null password), and a
second local account. -/
def aliceUser : User := { id := 1, username := some "alice", password := some "hash1" }

/-- Fixture user with a federated (Google) account and hence a null password. -/
def bobUser : User := { id := 2, username := some "bob", password := none }

/-- Fixture user with a local account. -/
def carolUser : User := { id := 3, username := some "carol", password := some "hash3" }

/-- Fixture database with a pending connection request from user 1 to user 2. -/
def pendingRequestDB : DB :=
  { emptyDB with
      users := [aliceUser, bobUser, carolUser]
      connectionRequests :=
        [{ id := 1, senderId := 1, receiverId := 2, status := "pending", message := none }]
      nextRequestId := 2 }

/-- Fixture database with an already accepted connection request from user 1
to user 2. -/
def acceptedRequestDB : DB :=
  { emptyDB with
      users := [aliceUser, bobUser, carolUser]
      connectionRequests :=
        [{ id := 1, senderId := 1, receiverId := 2, status := "accepted", message := none }]
      connections := [{ id := 1, user1Id := 1, user2Id := 2 }]
      nextRequestId := 2
      nextConnectionId := 2 }

/-- Fixture database with one conversation between users 1 and 2. -/
def conversationDB : DB :=
  { emptyDB with
      users := [aliceUser, bobUser, carolUser]
      conversations := [{ id := 1, user1Id := 1, user2Id := 2, lastMessageAt := 5 }]
      nextConversationId := 2 }

/-- Fixture database with one roadmap of three tasks and one user roadmap on
which two tasks are completed. -/
def roadmapDB : DB :=
  { emptyDB with
      users := [aliceUser]
      roadmapTasks :=
        [{ id := 1, roadmapId := 1, orderIndex := 1 },
         { id := 2, roadmapId := 1, orderIndex := 2 },
         { id := 3, roadmapId := 1, orderIndex := 3 }]
      userRoadmaps := [{ id := 1, userId := 1, roadmapId := 1, status := "active" }]
      userTaskProgress :=
        [{ id := 1, userId := 1, taskId := 1, userRoadmapId := 1, status := "completed" },
         { id := 2, userId := 1, taskId := 2, userRoadmapId := 1, status := "completed" },
         { id := 3, userId := 1, taskId := 3, userRoadmapId := 1, status := "pending" }]
      nextUserRoadmapId := 2
      nextProgressId := 4 }

/-- Fixture database with messages in the conversation between users 1 and 2:
an unread message from each side and an already-read message from user 2. -/
def messagesDB : DB :=
  { conversationDB with
      messages :=
        [{ id := 1, conversationId := 1, senderId := 1, content := "hi",
           messageType := "text", isRead := false, createdAt := 1 },
         { id := 2, conversationId := 1, senderId := 2, content := "hello",
           messageType := "text", isRead := false, createdAt := 2 },
         { id := 3, conversationId := 1, senderId := 2, content := "there",
           messageType := "text", isRead := true, createdAt := 3 }]
      nextMessageId := 4 }


/-! Helper lemmas about list search. -/

/-- Pointwise equal predicates find the same first element. -/
theorem find?_congr {A : Type} (p q : A → Bool) (h : ∀ x, p x = q x) :
    ∀ l : List A, l.find? p = l.find? q := by
  intro l
  induction l with
  | nil => rfl
  | cons a l ih => simp only [List.find?_cons, h a, ih]

/-- The either-direction conversation filter is symmetric in the two ids. -/
theorem conversationBetween_symm (a b : Nat) (cv : Conversation) :
    conversationBetween b a cv = conversationBetween a b cv := by
  unfold conversationBetween
  rw [Bool.or_comm]

/-- Behaviour of POST /conversations when a row for the pair exists. -/
theorem getOrCreate_found (db : DB) (a b now : Nat) (cv : Conversation)
    (ha : a ≠ 0) (hb : b ≠ 0) (hab : a ≠ b)
    (hfind : db.conversations.find? (conversationBetween a b) = some cv) :
    getOrCreateConversation db a b now = (.ok cv, db) := by
  unfold getOrCreateConversation
  simp [ha, hb, hab, hfind]

/-- Behaviour of POST /conversations when no row for the pair exists. -/
theorem getOrCreate_notFound (db : DB) (a b now : Nat)
    (ha : a ≠ 0) (hb : b ≠ 0) (hab : a ≠ b)
    (hfind : db.conversations.find? (conversationBetween a b) = none) :
    getOrCreateConversation db a b now =
      (.ok { id := db.nextConversationId, user1Id := min a b, user2Id := max a b,
             lastMessageAt := now },
       { db with
           conversations := db.conversations ++
             [{ id := db.nextConversationId, user1Id := min a b, user2Id := max a b,
                lastMessageAt := now }]
           nextConversationId := db.nextConversationId + 1 }) := by
  unfold getOrCreateConversation
  simp [ha, hb, hab, hfind]

/-- The normalized (min, max) row matches the either-direction filter. -/
theorem conversationBetween_minmax (a b : Nat) (hba : b ≠ a) (i t : Nat) :
    conversationBetween a b
      { id := i, user1Id := min a b, user2Id := max a b, lastMessageAt := t } = true := by
  unfold conversationBetween
  rcases Nat.lt_or_ge a b with h | h
  · simp [Nat.min_eq_left (Nat.le_of_lt h), Nat.max_eq_right (Nat.le_of_lt h)]
  · have hlt : b < a := Nat.lt_of_le_of_ne h (fun e => hba e)
    simp [Nat.min_eq_right (Nat.le_of_lt hlt), Nat.max_eq_left (Nat.le_of_lt hlt)]

/-- C1: for every pair of distinct non-zero user ids A and B, calling the
conversation get-or-create operation with (A, B) and then with (B, A) returns
the same conversation id, on every starting state — so in particular
regardless of which of the two directions comes first and of whether the
conversation already exists. -/
theorem getOrCreateConversation_direction_independent
    (db : DB) (a b now₁ now₂ : Nat) (ha : a ≠ 0) (hb : b ≠ 0) (hab : a ≠ b) :
    ∃ cv₁ cv₂ : Conversation,
      (getOrCreateConversation db a b now₁).1 = .ok cv₁ ∧
      (getOrCreateConversation (getOrCreateConversation db a b now₁).2 b a now₂).1 = .ok cv₂ ∧
      cv₁.id = cv₂.id := by
  have hba : b ≠ a := fun h => hab h.symm
  cases hfind : db.conversations.find? (conversationBetween a b) with
  | some cv =>
    have h1 := getOrCreate_found db a b now₁ cv ha hb hab hfind
    have hfind2 : ((getOrCreateConversation db a b now₁).2).conversations.find?
        (conversationBetween b a) = some cv := by
      rw [h1, find?_congr _ _ (conversationBetween_symm a b), hfind]
    have h2 := getOrCreate_found _ b a now₂ cv hb ha hba hfind2
    exact ⟨cv, cv, by rw [h1], by rw [h2], rfl⟩
  | none =>
    have h1 := getOrCreate_notFound db a b now₁ ha hb hab hfind
    set newCv : Conversation :=
      { id := db.nextConversationId, user1Id := min a b, user2Id := max a b,
        lastMessageAt := now₁ } with hnew
    have hfind2 : ((getOrCreateConversation db a b now₁).2).conversations.find?
        (conversationBetween b a) = some newCv := by
      rw [h1]
      show (db.conversations ++ [newCv]).find? (conversationBetween b a) = some newCv
      rw [List.find?_append, find?_congr _ _ (conversationBetween_symm a b), hfind]
      simp only [Option.none_or]
      simp [List.find?, conversationBetween_symm a b newCv,
        conversationBetween_minmax a b hba]
    have h2 := getOrCreate_found _ b a now₂ newCv hb ha hba hfind2
    exact ⟨newCv, newCv, by rw [h1], by rw [h2], rfl⟩

/-- Witness for C1 on the empty database with the pair called in both
directions. -/
theorem getOrCreateConversation_direction_independent_witness :
    (1 : Nat) ≠ 0 ∧ (2 : Nat) ≠ 0 ∧ (1 : Nat) ≠ 2 ∧
    ∃ cv₁ cv₂ : Conversation,
      (getOrCreateConversation emptyDB 1 2 0).1 = .ok cv₁ ∧
      (getOrCreateConversation (getOrCreateConversation emptyDB 1 2 0).2 2 1 7).1 = .ok cv₂ ∧
      cv₁.id = cv₂.id :=
  ⟨by decide, by decide, by decide,
    getOrCreateConversation_direction_independent emptyDB 1 2 0 7
      (by decide) (by decide) (by decide)⟩


/-- A list whose filter has a member is not empty. -/
theorem filter_not_isEmpty_of_mem {A : Type} {l : List A} {p : A → Bool} {x : A}
    (hx : x ∈ l) (hp : p x = true) : (l.filter p).isEmpty = false := by
  have hmem : x ∈ l.filter p := List.mem_filter.mpr ⟨hx, hp⟩
  cases hf : l.filter p with
  | nil => rw [hf] at hmem; cases hmem
  | cons a t => rfl

/-- C2: sending a connection request from A to B while a pending request
between the two (in either direction) already exists answers 409 Conflict and
leaves the whole database — in particular the set of connection-request
rows — unchanged, so no second pending row is created. -/
theorem sendConnectionRequest_duplicate_conflict
    (db : DB) (a b : Nat) (msg : Option String)
    (ha : a ≠ 0) (hb : b ≠ 0) (hab : a ≠ b)
    (hrecv : ∃ u ∈ db.users, u.id = b)
    (hpend : ∃ r ∈ db.connectionRequests, r.status = "pending" ∧
      ((r.senderId = a ∧ r.receiverId = b) ∨ (r.senderId = b ∧ r.receiverId = a))) :
    (sendConnectionRequest db a b msg).1 = .error 409 ∧
    (sendConnectionRequest db a b msg).2 = db := by
  obtain ⟨u, hu, hub⟩ := hrecv
  obtain ⟨r, hr, hrs, hdir⟩ := hpend
  have hA : (a == 0 || b == 0) = false := by simp [ha, hb]
  have hAB : (a == b) = false := by simp [hab]
  have hu' : (db.users.filter (fun u => u.id == b)).isEmpty = false :=
    filter_not_isEmpty_of_mem hu (by simp [hub])
  have hp' : (db.connectionRequests.filter (fun r =>
      (r.senderId == a && r.receiverId == b && r.status == "pending") ||
      (r.senderId == b && r.receiverId == a && r.status == "pending"))).isEmpty = false := by
    apply filter_not_isEmpty_of_mem hr
    rcases hdir with ⟨h1, h2⟩ | ⟨h1, h2⟩ <;> simp [h1, h2, hrs]
  unfold sendConnectionRequest
  simp only [hA, hAB, hu', hp', Bool.false_eq_true, if_false, Bool.not_false, if_true]
  split
  · exact ⟨rfl, rfl⟩
  · exact ⟨rfl, rfl⟩

/-- Witness for C2: user 2 answers the pending request of user 1 with a
request of their own and gets 409 with nothing inserted. -/
theorem sendConnectionRequest_duplicate_conflict_witness :
    (∃ u ∈ pendingRequestDB.users, u.id = 1) ∧
    (∃ r ∈ pendingRequestDB.connectionRequests, r.status = "pending" ∧
      ((r.senderId = 2 ∧ r.receiverId = 1) ∨ (r.senderId = 1 ∧ r.receiverId = 2))) ∧
    (sendConnectionRequest pendingRequestDB 2 1 none).1 = .error 409 ∧
    (sendConnectionRequest pendingRequestDB 2 1 none).2 = pendingRequestDB :=
  ⟨by decide, by decide,
    sendConnectionRequest_duplicate_conflict pendingRequestDB 2 1 none
      (by decide) (by decide) (by decide) (by decide) (by decide)⟩


/-- Two distinct naturals have their minimum strictly below their maximum. -/
theorem min_lt_max_of_ne {a b : Nat} (h : a ≠ b) : min a b < max a b := by
  rcases Nat.lt_or_ge a b with hlt | hge
  · rw [Nat.min_eq_left (Nat.le_of_lt hlt), Nat.max_eq_right (Nat.le_of_lt hlt)]
    exact hlt
  · have hlt : b < a := Nat.lt_of_le_of_ne hge (fun e => h e.symm)
    rw [Nat.min_eq_right (Nat.le_of_lt hlt), Nat.max_eq_left (Nat.le_of_lt hlt)]
    exact hlt

/-- C3: when the receiver of a pending connection request accepts it, the
request status becomes accepted and exactly one connection row is appended,
holding the two user ids with the smaller one first; when the receiver
rejects it, the status becomes rejected and the connection table is
untouched. -/
theorem acceptReject_transitions
    (db : DB) (rid uid : Nat) (r : ConnectionRequest)
    (hu : uid ≠ 0)
    (hfind : db.connectionRequests.find? (fun q => q.id == rid) = some r)
    (hrecv : r.receiverId = uid) (hpend : r.status = "pending")
    (hne : r.senderId ≠ r.receiverId) :
    ((acceptConnectionRequest db rid uid).1 = .ok () ∧
      (∃ cn : Connection,
        (acceptConnectionRequest db rid uid).2.connections = db.connections ++ [cn] ∧
        cn.user1Id = min r.senderId r.receiverId ∧
        cn.user2Id = max r.senderId r.receiverId ∧
        cn.user1Id < cn.user2Id) ∧
      (∀ q ∈ (acceptConnectionRequest db rid uid).2.connectionRequests,
        q.id = r.id → q.status = "accepted")) ∧
    ((rejectConnectionRequest db rid uid).1 = .ok () ∧
      (rejectConnectionRequest db rid uid).2.connections = db.connections ∧
      (∀ q ∈ (rejectConnectionRequest db rid uid).2.connectionRequests,
        q.id = r.id → q.status = "rejected")) := by
  have hid : r.id = rid := by
    have := List.find?_some hfind
    simpa using this
  have hU : (uid == 0) = false := by simp [hu]
  have hR : (r.receiverId != uid) = false := by simp [hrecv]
  have hS : (r.status != "pending") = false := by simp [hpend]
  have haccept : acceptConnectionRequest db rid uid =
      (.ok (),
        { db with
            connections := db.connections ++
              [{ id := db.nextConnectionId,
                 user1Id := min r.senderId r.receiverId,
                 user2Id := max r.senderId r.receiverId }]
            nextConnectionId := db.nextConnectionId + 1
            connectionRequests := db.connectionRequests.map (fun q =>
              if q.id == rid then { q with status := "accepted" } else q) }) := by
    unfold acceptConnectionRequest
    simp only [hU, Bool.false_eq_true, if_false, hfind, hR, hS]
  have hreject : rejectConnectionRequest db rid uid =
      (.ok (),
        { db with
            connectionRequests := db.connectionRequests.map (fun q =>
              if q.id == rid then { q with status := "rejected" } else q) }) := by
    unfold rejectConnectionRequest
    simp only [hU, Bool.false_eq_true, if_false, hfind, hR, hS]
  refine ⟨⟨?_, ?_, ?_⟩, ?_, ?_, ?_⟩
  · rw [haccept]
  · exact ⟨{ id := db.nextConnectionId, user1Id := min r.senderId r.receiverId,
             user2Id := max r.senderId r.receiverId },
      by rw [haccept], rfl, rfl, min_lt_max_of_ne hne⟩
  · intro q hq hqid
    rw [haccept] at hq
    obtain ⟨q₀, hq₀, rfl⟩ := List.mem_map.mp hq
    by_cases hc : (q₀.id == rid) = true
    · simp only [hc, if_true]
    · rw [if_neg hc] at hqid
      exact absurd (by simpa using hqid.trans hid) hc
  · rw [hreject]
  · rw [hreject]
  · intro q hq hqid
    rw [hreject] at hq
    obtain ⟨q₀, hq₀, rfl⟩ := List.mem_map.mp hq
    by_cases hc : (q₀.id == rid) = true
    · simp only [hc, if_true]
    · rw [if_neg hc] at hqid
      exact absurd (by simpa using hqid.trans hid) hc


/-- Witness for C3 on the fixture request from user 1 to user 2 accepted and
rejected by user 2. -/
theorem acceptReject_transitions_witness :
    (pendingRequestDB.connectionRequests.find? (fun q => q.id == 1) =
      some { id := 1, senderId := 1, receiverId := 2, status := "pending",
             message := none }) ∧
    (((acceptConnectionRequest pendingRequestDB 1 2).1 = .ok () ∧
      (∃ cn : Connection,
        (acceptConnectionRequest pendingRequestDB 1 2).2.connections =
          pendingRequestDB.connections ++ [cn] ∧
        cn.user1Id = min 1 2 ∧ cn.user2Id = max 1 2 ∧ cn.user1Id < cn.user2Id) ∧
      (∀ q ∈ (acceptConnectionRequest pendingRequestDB 1 2).2.connectionRequests,
        q.id = 1 → q.status = "accepted")) ∧
     ((rejectConnectionRequest pendingRequestDB 1 2).1 = .ok () ∧
      (rejectConnectionRequest pendingRequestDB 1 2).2.connections =
        pendingRequestDB.connections ∧
      (∀ q ∈ (rejectConnectionRequest pendingRequestDB 1 2).2.connectionRequests,
        q.id = 1 → q.status = "rejected"))) :=
  ⟨by decide,
    acceptReject_transitions pendingRequestDB 1 2
      { id := 1, senderId := 1, receiverId := 2, status := "pending", message := none }
      (by decide) (by decide) (by decide) (by decide) (by decide)⟩

/-! Effect of each operation on the connection_requests table. -/

/-- POST /conversations leaves the connection_requests table unchanged. -/
theorem connectionRequests_getOrCreate (db : DB) (a b now : Nat) :
    ((getOrCreateConversation db a b now).2).connectionRequests = db.connectionRequests := by
  unfold getOrCreateConversation
  split
  · rfl
  split
  · rfl
  split <;> rfl

theorem connectionRequests_sendMessage (db : DB) (cid sid : Nat) (c mt : String) (now : Nat) :
    ((sendMessage db cid sid c mt now).2).connectionRequests = db.connectionRequests := by
  unfold sendMessage
  split
  · rfl
  split <;> rfl

theorem connectionRequests_socketSendMessage (db : DB) (cid sid : Nat) (c : String) (now : Nat) :
    ((socketSendMessage db cid sid c now).2).connectionRequests = db.connectionRequests := by
  unfold socketSendMessage
  split <;> rfl

theorem connectionRequests_markMessagesRead (db : DB) (cid uid : Nat) :
    ((markMessagesRead db cid uid).2).connectionRequests = db.connectionRequests := by
  unfold markMessagesRead
  split <;> rfl

theorem connectionRequests_disconnect (db : DB) (uid oid : Nat) :
    ((disconnectConnection db uid oid).2).connectionRequests = db.connectionRequests := by
  unfold disconnectConnection
  split
  · rfl
  split
  · rfl
  dsimp only
  split <;> rfl

theorem connectionRequests_startRoadmap (db : DB) (rmid uid : Nat) :
    ((startRoadmap db rmid uid).2).connectionRequests = db.connectionRequests := by
  unfold startRoadmap
  split <;> rfl

theorem connectionRequests_updateTaskStatus (db : DB) (pid : Nat) (st : String) :
    ((updateTaskStatus db pid st).2).connectionRequests = db.connectionRequests := rfl

theorem connectionRequests_sendConnectionRequest (db : DB) (a b : Nat) (m : Option String) :
    ((sendConnectionRequest db a b m).2).connectionRequests = db.connectionRequests ∨
    ((sendConnectionRequest db a b m).2).connectionRequests =
      db.connectionRequests ++
        [{ id := db.nextRequestId, senderId := a, receiverId := b,
           status := "pending", message := trimToNull m }] := by
  unfold sendConnectionRequest
  split
  · exact .inl rfl
  split
  · exact .inl rfl
  split
  · exact .inl rfl
  split
  · exact .inl rfl
  split
  · exact .inl rfl
  · exact .inr rfl

theorem connectionRequests_accept (db : DB) (rid uid : Nat) :
    ((acceptConnectionRequest db rid uid).2).connectionRequests = db.connectionRequests ∨
    ((acceptConnectionRequest db rid uid).2).connectionRequests =
      db.connectionRequests.map (fun q =>
        if q.id == rid then { q with status := "accepted" } else q) := by
  unfold acceptConnectionRequest
  split
  · exact .inl rfl
  split
  · exact .inl rfl
  split
  · exact .inl rfl
  split
  · exact .inl rfl
  · exact .inr rfl

theorem connectionRequests_reject (db : DB) (rid uid : Nat) :
    ((rejectConnectionRequest db rid uid).2).connectionRequests = db.connectionRequests ∨
    ((∃ req, db.connectionRequests.find? (fun q => q.id == rid) = some req ∧
        req.status = "pending") ∧
      ((rejectConnectionRequest db rid uid).2).connectionRequests =
        db.connectionRequests.map (fun q =>
          if q.id == rid then { q with status := "rejected" } else q)) := by
  unfold rejectConnectionRequest
  split
  · exact .inl rfl
  split
  · exact .inl rfl
  rename_i req hfind
  split
  · exact .inl rfl
  split
  · exact .inl rfl
  rename_i hnotpend
  refine .inr ⟨⟨req, hfind, ?_⟩, rfl⟩
  simpa using hnotpend

/-- C4 (amended): once a connection request has been accepted, no operation
of the program returns it to the pending state: after any single operation,
every row carrying its id still has status accepted.  The hypotheses state
the serial-key facts the storage layer guarantees: request ids are distinct
and below the next serial value.  (The second half of the original claim is
false: the disconnect operation deletes the Connection row, see the
counterexample.) -/
theorem accepted_request_never_pending
    (op : Op) (db : DB) (r : ConnectionRequest)
    (hr : r ∈ db.connectionRequests) (hacc : r.status = "accepted")
    (hnodup : (db.connectionRequests.map ConnectionRequest.id).Nodup)
    (hfresh : ∀ q ∈ db.connectionRequests, q.id < db.nextRequestId) :
    ∀ q ∈ (applyOp op db).connectionRequests, q.id = r.id → q.status = "accepted" := by
  have huniq : ∀ q ∈ db.connectionRequests, q.id = r.id → q = r :=
    fun q hq hid => List.inj_on_of_nodup_map hnodup hq hr hid
  intro q hq hid
  cases op with
  | opGetOrCreateConversation a b now =>
    simp only [applyOp, connectionRequests_getOrCreate] at hq
    rw [huniq q hq hid]; exact hacc
  | opSendMessage cid sid c mt now =>
    simp only [applyOp, connectionRequests_sendMessage] at hq
    rw [huniq q hq hid]; exact hacc
  | opSocketSendMessage cid sid c now =>
    simp only [applyOp, connectionRequests_socketSendMessage] at hq
    rw [huniq q hq hid]; exact hacc
  | opMarkMessagesRead cid uid =>
    simp only [applyOp, connectionRequests_markMessagesRead] at hq
    rw [huniq q hq hid]; exact hacc
  | opDisconnectConnection uid oid =>
    simp only [applyOp, connectionRequests_disconnect] at hq
    rw [huniq q hq hid]; exact hacc
  | opStartRoadmap rmid uid =>
    simp only [applyOp, connectionRequests_startRoadmap] at hq
    rw [huniq q hq hid]; exact hacc
  | opUpdateTaskStatus pid st =>
    simp only [applyOp, connectionRequests_updateTaskStatus] at hq
    rw [huniq q hq hid]; exact hacc
  | opSendConnectionRequest sid rcv m =>
    simp only [applyOp] at hq
    rcases connectionRequests_sendConnectionRequest db sid rcv m with h | h
    · rw [h] at hq
      rw [huniq q hq hid]; exact hacc
    · rw [h] at hq
      rcases List.mem_append.mp hq with hq' | hq'
      · rw [huniq q hq' hid]; exact hacc
      · have hqnew := List.mem_singleton.mp hq'
        have hlt := hfresh r hr
        rw [hqnew] at hid
        exact absurd (hid ▸ hlt) (Nat.lt_irrefl _)
  | opAcceptConnectionRequest rid uid =>
    simp only [applyOp] at hq
    rcases connectionRequests_accept db rid uid with h | h
    · rw [h] at hq
      rw [huniq q hq hid]; exact hacc
    · rw [h] at hq
      obtain ⟨q₀, hq₀, rfl⟩ := List.mem_map.mp hq
      by_cases hc : (q₀.id == rid) = true
      · simp only [hc, if_true]
      · rw [if_neg hc] at hid ⊢
        rw [huniq q₀ hq₀ hid]; exact hacc
  | opRejectConnectionRequest rid uid =>
    simp only [applyOp] at hq
    rcases connectionRequests_reject db rid uid with h | ⟨⟨req, hfind, hpend⟩, h⟩
    · rw [h] at hq
      rw [huniq q hq hid]; exact hacc
    · rw [h] at hq
      obtain ⟨q₀, hq₀, rfl⟩ := List.mem_map.mp hq
      by_cases hc : (q₀.id == rid) = true
      · exfalso
        rw [if_pos hc] at hid
        have hq₀r : q₀ = r := huniq q₀ hq₀ hid
        have hreq_mem := List.mem_of_find?_eq_some hfind
        have hreq_id : req.id = rid := by simpa using List.find?_some hfind
        have hrid : r.id = rid := by
          rw [← hq₀r]; simpa using hc
        have hreqr : req = r := huniq req hreq_mem (hreq_id.trans hrid.symm)
        rw [hreqr, hacc] at hpend
        exact absurd hpend (by decide)
      · rw [if_neg hc] at hid ⊢
        rw [huniq q₀ hq₀ hid]; exact hacc

/-- C4 counterexample: accepting the pending fixture request creates a
connection row, and the disconnect operation then removes it — so an
operation of the program does remove the Connection row created by an
acceptance. -/
theorem disconnect_removes_connection_cex :
    (acceptConnectionRequest pendingRequestDB 1 2).2.connections ≠ [] ∧
    (disconnectConnection (acceptConnectionRequest pendingRequestDB 1 2).2 1 2).2.connections = [] := by
  decide

/-- Witness for the amended C4: rejecting the id of an already accepted
request leaves it accepted. -/
theorem accepted_request_never_pending_witness :
    ({ id := 1, senderId := 1, receiverId := 2, status := "accepted",
       message := none } ∈ acceptedRequestDB.connectionRequests) ∧
    ∀ q ∈ (applyOp (.opRejectConnectionRequest 1 2) acceptedRequestDB).connectionRequests,
      q.id = 1 → q.status = "accepted" :=
  ⟨by decide,
    accepted_request_never_pending (.opRejectConnectionRequest 1 2) acceptedRequestDB
      { id := 1, senderId := 1, receiverId := 2, status := "accepted", message := none }
      (by decide) (by decide) (by decide) (by decide)⟩

/-- The natural division the percentage computation reduces to equals the
round-half-up of the exact rational value. -/
theorem natDiv_eq_round (c t : Nat) (ht : 0 < t) :
    (((200 * c + t) / (2 * t) : Nat) : ℤ) =
      round ((c : ℚ) / (t : ℚ) * 100) := by
  have htQ : (t : ℚ) ≠ 0 := Nat.cast_ne_zero.mpr (Nat.pos_iff_ne_zero.mp ht)
  have hval : (c : ℚ) / (t : ℚ) * 100 + 1 / 2 =
      ((200 * c + t : Nat) : ℚ) / ((2 * t : Nat) : ℚ) := by
    push_cast
    field_simp
    ring
  rw [round_eq, hval]
  have hnonneg : (0 : ℚ) ≤ ((200 * c + t : Nat) : ℚ) / ((2 * t : Nat) : ℚ) := by
    positivity
  rw [← Int.natCast_floor_eq_floor hnonneg]
  congr 1
  rw [Nat.floor_div_nat, Nat.floor_natCast]


/-- C5: every entry of the user roadmap-progress listing has its progress
percentage equal to round(completed / total * 100) computed in exact rational
arithmetic (round to nearest, halves up, exactly like Math.round on the
non-negative value); in particular it is 100 when every task is completed,
0 when no task is completed, and 67 for 2 completed tasks out of 3. -/
theorem progressPercentage_round (db : DB) (uid : Nat) (e : RoadmapProgressEntry)
    (he : e ∈ listUserRoadmapProgress db uid) :
    (0 < e.totalTasks →
      (e.progressPercentage : ℤ) =
        round ((e.completedTasks : ℚ) / (e.totalTasks : ℚ) * 100)) ∧
    (0 < e.totalTasks → e.completedTasks = e.totalTasks → e.progressPercentage = 100) ∧
    (e.completedTasks = 0 → e.progressPercentage = 0) ∧
    (e.totalTasks = 3 → e.completedTasks = 2 → e.progressPercentage = 67) := by
  obtain ⟨ur, hur, rfl⟩ := List.mem_map.mp he
  dsimp only
  set T := (db.roadmapTasks.filter (fun t => t.roadmapId == ur.roadmapId)).length with hT
  set C := (db.userTaskProgress.filter (fun p =>
    p.userRoadmapId == ur.id && p.status == "completed")).length with hC
  refine ⟨?_, ?_, ?_, ?_⟩
  · intro ht
    rw [if_pos ht]
    exact natDiv_eq_round C T ht
  · intro ht hct
    rw [if_pos ht, hct]
    exact Nat.div_eq_of_lt_le (by omega) (by omega)
  · intro hc0
    rw [hc0]
    by_cases ht : 0 < T
    · rw [if_pos ht]
      exact Nat.div_eq_of_lt (by omega)
    · rw [if_neg ht]
  · intro h3 h2
    rw [h3, h2]
    norm_num

/-- Witness for C5 on the three-task fixture roadmap with two completed
tasks. -/
theorem progressPercentage_round_witness :
    ({ userRoadmapId := 1, roadmapId := 1, totalTasks := 3, completedTasks := 2,
       progressPercentage := 67 } ∈ listUserRoadmapProgress roadmapDB 1) ∧
    ((0 < (3 : Nat) → ((67 : Nat) : ℤ) = round (((2 : Nat) : ℚ) / ((3 : Nat) : ℚ) * 100)) ∧
     (0 < (3 : Nat) → (2 : Nat) = 3 → (67 : Nat) = 100) ∧
     ((2 : Nat) = 0 → (67 : Nat) = 0) ∧
     ((3 : Nat) = 3 → (2 : Nat) = 2 → (67 : Nat) = 67)) :=
  ⟨by decide,
    progressPercentage_round roadmapDB 1
      { userRoadmapId := 1, roadmapId := 1, totalTasks := 3, completedTasks := 2,
        progressPercentage := 67 }
      (by decide)⟩

/-- The bulk insert creates one row per task. -/
theorem progressEntries_length (u ur : Nat) :
    ∀ (ts : List RoadmapTask) (n : Nat), (progressEntries u ur n ts).length = ts.length := by
  intro ts
  induction ts with
  | nil => intro n; rfl
  | cons t ts ih => intro n; simp [progressEntries, ih]

/-- The bulk insert rows reference the tasks in order. -/
theorem progressEntries_map_taskId (u ur : Nat) :
    ∀ (ts : List RoadmapTask) (n : Nat),
      (progressEntries u ur n ts).map (fun p => p.taskId) = ts.map (fun t => t.id) := by
  intro ts
  induction ts with
  | nil => intro n; rfl
  | cons t ts ih => intro n; simp [progressEntries, ih]

/-- Every bulk-inserted row starts pending and belongs to the user. -/
theorem progressEntries_fields (u ur : Nat) :
    ∀ (ts : List RoadmapTask) (n : Nat),
      ∀ p ∈ progressEntries u ur n ts, p.status = "pending" ∧ p.userId = u := by
  intro ts
  induction ts with
  | nil => intro n p hp; cases hp
  | cons t ts ih =>
    intro n p hp
    rcases List.mem_cons.mp hp with rfl | hp2
    · exact ⟨rfl, rfl⟩
    · exact ih (n + 1) p hp2

/-- C6: starting a roadmap the user does not already have succeeds and
appends exactly one user-task-progress row per task of the roadmap template —
the prior progress rows are untouched, the appended rows are in bijection
with the template tasks (same count, same task ids in order) — and every
appended row has initial status pending. -/
theorem startRoadmap_creates_pending_rows (db : DB) (rmid uid : Nat)
    (hnot : (db.userRoadmaps.filter (fun ur =>
      ur.userId == uid && ur.roadmapId == rmid)).isEmpty = true) :
    ((startRoadmap db rmid uid).1 =
      .ok { id := db.nextUserRoadmapId, userId := uid, roadmapId := rmid,
            status := "active" }) ∧
    ((startRoadmap db rmid uid).2.userTaskProgress.take db.userTaskProgress.length =
      db.userTaskProgress) ∧
    (((startRoadmap db rmid uid).2.userTaskProgress.drop db.userTaskProgress.length).length =
      (db.roadmapTasks.filter (fun t => t.roadmapId == rmid)).length) ∧
    (((startRoadmap db rmid uid).2.userTaskProgress.drop db.userTaskProgress.length).map
        (fun p => p.taskId) =
      (db.roadmapTasks.filter (fun t => t.roadmapId == rmid)).map (fun t => t.id)) ∧
    (∀ p ∈ (startRoadmap db rmid uid).2.userTaskProgress.drop db.userTaskProgress.length,
      p.status = "pending" ∧ p.userId = uid) := by
  have hstart : startRoadmap db rmid uid =
      (.ok { id := db.nextUserRoadmapId, userId := uid, roadmapId := rmid,
             status := "active" },
       { db with
           userRoadmaps := db.userRoadmaps ++
             [{ id := db.nextUserRoadmapId, userId := uid, roadmapId := rmid,
                status := "active" }]
           nextUserRoadmapId := db.nextUserRoadmapId + 1
           userTaskProgress := db.userTaskProgress ++
             progressEntries uid db.nextUserRoadmapId db.nextProgressId
               (db.roadmapTasks.filter (fun t => t.roadmapId == rmid))
           nextProgressId := db.nextProgressId +
             (db.roadmapTasks.filter (fun t => t.roadmapId == rmid)).length }) := by
    unfold startRoadmap
    simp only [hnot, Bool.not_true, Bool.false_eq_true, if_false]
  refine ⟨?_, ?_, ?_, ?_, ?_⟩
  · rw [hstart]
  · rw [hstart]
    exact List.take_left _ _
  · rw [hstart]
    show (List.drop db.userTaskProgress.length (db.userTaskProgress ++ _)).length = _
    rw [List.drop_left]
    exact progressEntries_length _ _ _ _
  · rw [hstart]
    show (List.drop db.userTaskProgress.length (db.userTaskProgress ++ _)).map _ = _
    rw [List.drop_left]
    exact progressEntries_map_taskId _ _ _ _
  · rw [hstart]
    show ∀ p ∈ List.drop db.userTaskProgress.length (db.userTaskProgress ++ _), _
    rw [List.drop_left]
    exact progressEntries_fields _ _ _ _

/-- Witness for C6: user 2 starts the three-task fixture roadmap. -/
theorem startRoadmap_creates_pending_rows_witness :
    ((roadmapDB.userRoadmaps.filter (fun ur =>
      ur.userId == 2 && ur.roadmapId == 1)).isEmpty = true) ∧
    (((startRoadmap roadmapDB 1 2).1 =
      .ok { id := roadmapDB.nextUserRoadmapId, userId := 2, roadmapId := 1,
            status := "active" }) ∧
    ((startRoadmap roadmapDB 1 2).2.userTaskProgress.take roadmapDB.userTaskProgress.length =
      roadmapDB.userTaskProgress) ∧
    (((startRoadmap roadmapDB 1 2).2.userTaskProgress.drop roadmapDB.userTaskProgress.length).length =
      (roadmapDB.roadmapTasks.filter (fun t => t.roadmapId == 1)).length) ∧
    (((startRoadmap roadmapDB 1 2).2.userTaskProgress.drop roadmapDB.userTaskProgress.length).map
        (fun p => p.taskId) =
      (roadmapDB.roadmapTasks.filter (fun t => t.roadmapId == 1)).map (fun t => t.id)) ∧
    (∀ p ∈ (startRoadmap roadmapDB 1 2).2.userTaskProgress.drop roadmapDB.userTaskProgress.length,
      p.status = "pending" ∧ p.userId = 2)) :=
  ⟨by decide, startRoadmap_creates_pending_rows roadmapDB 1 2 (by decide)⟩

/-- A mapped list is pointwise related to the original. -/
theorem forall₂_map_self {A : Type} (R : A → A → Prop) (f : A → A) :
    ∀ l : List A, (∀ x ∈ l, R x (f x)) → List.Forall₂ R l (l.map f) := by
  intro l
  induction l with
  | nil => intro h; exact .nil
  | cons a l ih =>
    intro h
    exact .cons (h a (.head _)) (ih fun x hx => h x (.tail _ hx))

/-- C7: the mark-read operation of user X on conversation C sets the read
flag on exactly the messages of C that are unread and not sent by X (stated
pointwise over the message table: such messages change only in their read
flag, every other message — in particular every message sent by X — is
untouched), and the conversation table is unchanged. -/
theorem markMessagesRead_only_others_unread (db : DB) (cid uid : Nat)
    (hc : cid ≠ 0) (hu : uid ≠ 0) :
    ((markMessagesRead db cid uid).1 = .ok ()) ∧
    List.Forall₂ (fun m m2 : Message =>
        (m.conversationId = cid → m.isRead = false → m.senderId ≠ uid →
          m2 = { m with isRead := true }) ∧
        (m.senderId = uid ∨ m.conversationId ≠ cid ∨ m.isRead = true → m2 = m))
      db.messages (markMessagesRead db cid uid).2.messages ∧
    (∀ m ∈ db.messages, m.senderId = uid →
      m ∈ (markMessagesRead db cid uid).2.messages) ∧
    ((markMessagesRead db cid uid).2.conversations = db.conversations) := by
  have hC : (cid == 0 || uid == 0) = false := by simp [hc, hu]
  have hmark : markMessagesRead db cid uid =
      (.ok (),
        { db with
            messages := db.messages.map (fun m =>
              if m.conversationId == cid && m.isRead == false && m.senderId != uid then
                { m with isRead := true }
              else m) }) := by
    unfold markMessagesRead
    simp only [hC, Bool.false_eq_true, if_false]
  refine ⟨by rw [hmark], ?_, ?_, by rw [hmark]⟩
  · rw [hmark]
    apply forall₂_map_self
    intro m hm
    by_cases hcond :
        (m.conversationId == cid && m.isRead == false && m.senderId != uid) = true
    · rw [if_pos hcond]
      simp only [Bool.and_eq_true, beq_iff_eq, bne_iff_ne, ne_eq] at hcond
      constructor
      · intro _ _ _; rfl
      · rintro (h | h | h)
        · exact absurd h hcond.2
        · exact absurd hcond.1.1 h
        · rw [hcond.1.2] at h; cases h
    · rw [if_neg hcond]
      simp only [Bool.and_eq_true, beq_iff_eq, bne_iff_ne, ne_eq, not_and] at hcond
      constructor
      · intro h1 h2 h3
        exact absurd h3 (hcond ⟨h1, h2⟩)
      · intro _; rfl
  · rw [hmark]
    intro m hm hsender
    refine List.mem_map.mpr ⟨m, hm, ?_⟩
    have : (m.senderId != uid) = false := by simp [hsender]
    simp [this]

/-- Witness for C7: user 1 marks the fixture conversation read. -/
theorem markMessagesRead_only_others_unread_witness :
    (1 : Nat) ≠ 0 ∧
    (((markMessagesRead messagesDB 1 1).1 = .ok ()) ∧
     List.Forall₂ (fun m m2 : Message =>
         (m.conversationId = 1 → m.isRead = false → m.senderId ≠ 1 →
           m2 = { m with isRead := true }) ∧
         (m.senderId = 1 ∨ m.conversationId ≠ 1 ∨ m.isRead = true → m2 = m))
       messagesDB.messages (markMessagesRead messagesDB 1 1).2.messages ∧
     (∀ m ∈ messagesDB.messages, m.senderId = 1 →
       m ∈ (markMessagesRead messagesDB 1 1).2.messages) ∧
     ((markMessagesRead messagesDB 1 1).2.conversations = messagesDB.conversations)) :=
  ⟨by decide, markMessagesRead_only_others_unread messagesDB 1 1 (by decide) (by decide)⟩

/-- C8 counterexample: user 3 is not a participant of conversation 1 (held
between users 1 and 2).  The HTTP send fails with status 404, not with 403
Forbidden; and the socket send-message handler performs no participant
validation at all — it persists the message row from the non-participant. -/
theorem sendMessage_nonparticipant_cex :
    (sendMessage conversationDB 1 3 "hi" "text" 9).1 = .error 404 ∧
    (sendMessage conversationDB 1 3 "hi" "text" 9).1 ≠ .error 403 ∧
    (sendMessage conversationDB 1 3 "hi" "text" 9).2.messages = conversationDB.messages ∧
    (socketSendMessage conversationDB 1 3 "hi" 9).2.messages =
      conversationDB.messages ++
        [{ id := 1, conversationId := 1, senderId := 3, content := "hi",
           messageType := "text", isRead := false, createdAt := 9 }] := by
  decide

/-- C8 (amended): the HTTP message-send endpoint does validate the sender is
a participant of the target conversation before persisting anything and, when
the sender is not a participant, it fails with the 404 not-found/access-denied
response (not 403 Forbidden) and leaves the database unchanged; the socket
send-message handler, by contrast, persists the message row without any
participant validation. -/
theorem sendMessage_nonparticipant_behavior (db : DB) (cid sid : Nat)
    (content mt : String) (now : Nat)
    (hc : cid ≠ 0) (hs : sid ≠ 0) (hcontent : jsTrim content ≠ "")
    (hnp : db.conversations.find? (fun cv =>
      cv.id == cid && (cv.user1Id == sid || cv.user2Id == sid)) = none) :
    ((sendMessage db cid sid content mt now).1 = .error 404 ∧
     (sendMessage db cid sid content mt now).2 = db) ∧
    ((socketSendMessage db cid sid content now).2.messages.length =
      db.messages.length + 1) := by
  have hcheck : (cid == 0 || sid == 0 || jsTrim content == "") = false := by
    simp [hc, hs, hcontent]
  have hS : (sid == 0) = false := by simp [hs]
  constructor
  · unfold sendMessage
    simp only [hcheck, Bool.false_eq_true, if_false, hnp]
    exact ⟨trivial, trivial⟩
  · unfold socketSendMessage
    simp only [hS, Bool.false_eq_true, if_false]
    simp

/-- Witness for the amended C8 at the concrete non-participant input. -/
theorem sendMessage_nonparticipant_behavior_witness :
    (conversationDB.conversations.find? (fun cv =>
      cv.id == 1 && (cv.user1Id == 3 || cv.user2Id == 3)) = none) ∧
    (((sendMessage conversationDB 1 3 "hey" "text" 9).1 = .error 404 ∧
      (sendMessage conversationDB 1 3 "hey" "text" 9).2 = conversationDB) ∧
     ((socketSendMessage conversationDB 1 3 "hey" 9).2.messages.length =
       conversationDB.messages.length + 1)) :=
  ⟨by decide,
    sendMessage_nonparticipant_behavior conversationDB 1 3 "hey" "text" 9
      (by decide) (by decide) (by decide) (by decide)⟩

/-! Shape of the state change of each operation: either the database is
untouched (a validation failed) or it changes by exactly the writes of the
success path. -/

/-- POST /conversations either leaves the state unchanged or appends one
(min, max)-normalized conversation row for two distinct ids. -/
theorem getOrCreate_shape (db : DB) (a b now : Nat) :
    (getOrCreateConversation db a b now).2 = db ∨
    (a ≠ b ∧ (getOrCreateConversation db a b now).2 =
      { db with
          conversations := db.conversations ++
            [{ id := db.nextConversationId, user1Id := min a b, user2Id := max a b,
               lastMessageAt := now }]
          nextConversationId := db.nextConversationId + 1 }) := by
  unfold getOrCreateConversation
  split
  · exact .inl rfl
  split
  · exact .inl rfl
  rename_i hab
  split
  · exact .inl rfl
  · exact .inr ⟨by simpa using hab, rfl⟩

theorem sendMessage_shape (db : DB) (cid sid : Nat) (c mt : String) (now : Nat) :
    (sendMessage db cid sid c mt now).2 = db ∨
    (sendMessage db cid sid c mt now).2 =
      { db with
          messages := db.messages ++
            [{ id := db.nextMessageId, conversationId := cid, senderId := sid,
               content := jsTrim c, messageType := mt, isRead := false,
               createdAt := now }]
          conversations := db.conversations.map (fun cv =>
            if cv.id == cid then { cv with lastMessageAt := now } else cv)
          nextMessageId := db.nextMessageId + 1 } := by
  unfold sendMessage
  split
  · exact .inl rfl
  split
  · exact .inl rfl
  · exact .inr rfl

theorem socketSendMessage_shape (db : DB) (cid sid : Nat) (c : String) (now : Nat) :
    (socketSendMessage db cid sid c now).2 = db ∨
    (socketSendMessage db cid sid c now).2 =
      { db with
          messages := db.messages ++
            [{ id := db.nextMessageId, conversationId := cid, senderId := sid,
               content := c, messageType := "text", isRead := false,
               createdAt := now }]
          conversations := db.conversations.map (fun cv =>
            if cv.id == cid then { cv with lastMessageAt := now } else cv)
          nextMessageId := db.nextMessageId + 1 } := by
  unfold socketSendMessage
  split
  · exact .inl rfl
  · exact .inr rfl

theorem markMessagesRead_shape (db : DB) (cid uid : Nat) :
    (markMessagesRead db cid uid).2 = db ∨
    (markMessagesRead db cid uid).2 =
      { db with
          messages := db.messages.map (fun m =>
            if m.conversationId == cid && m.isRead == false && m.senderId != uid then
              { m with isRead := true }
            else m) } := by
  unfold markMessagesRead
  split
  · exact .inl rfl
  · exact .inr rfl

theorem sendConnectionRequest_shape (db : DB) (a b : Nat) (m : Option String) :
    (sendConnectionRequest db a b m).2 = db ∨
    (a ≠ b ∧ (sendConnectionRequest db a b m).2 =
      { db with
          connectionRequests := db.connectionRequests ++
            [{ id := db.nextRequestId, senderId := a, receiverId := b,
               status := "pending", message := trimToNull m }]
          nextRequestId := db.nextRequestId + 1 }) := by
  unfold sendConnectionRequest
  split
  · exact .inl rfl
  split
  · exact .inl rfl
  rename_i hab
  split
  · exact .inl rfl
  split
  · exact .inl rfl
  split
  · exact .inl rfl
  · exact .inr ⟨by simpa using hab, rfl⟩

theorem accept_shape (db : DB) (rid uid : Nat) :
    (acceptConnectionRequest db rid uid).2 = db ∨
    ∃ req, db.connectionRequests.find? (fun q => q.id == rid) = some req ∧
      (acceptConnectionRequest db rid uid).2 =
        { db with
            connections := db.connections ++
              [{ id := db.nextConnectionId,
                 user1Id := min req.senderId req.receiverId,
                 user2Id := max req.senderId req.receiverId }]
            nextConnectionId := db.nextConnectionId + 1
            connectionRequests := db.connectionRequests.map (fun q =>
              if q.id == rid then { q with status := "accepted" } else q) } := by
  unfold acceptConnectionRequest
  split
  · exact .inl rfl
  split
  · exact .inl rfl
  rename_i req hfind
  split
  · exact .inl rfl
  split
  · exact .inl rfl
  · exact .inr ⟨req, hfind, rfl⟩

theorem reject_shape (db : DB) (rid uid : Nat) :
    (rejectConnectionRequest db rid uid).2 = db ∨
    (rejectConnectionRequest db rid uid).2 =
      { db with
          connectionRequests := db.connectionRequests.map (fun q =>
            if q.id == rid then { q with status := "rejected" } else q) } := by
  unfold rejectConnectionRequest
  split
  · exact .inl rfl
  split
  · exact .inl rfl
  split
  · exact .inl rfl
  split
  · exact .inl rfl
  · exact .inr rfl

theorem disconnect_shape (db : DB) (uid oid : Nat) :
    (disconnectConnection db uid oid).2 = db ∨
    (disconnectConnection db uid oid).2 =
      { db with
          connections := db.connections.filter (fun cn =>
            !((cn.user1Id == uid && cn.user2Id == oid) ||
              (cn.user1Id == oid && cn.user2Id == uid))) } := by
  unfold disconnectConnection
  split
  · exact .inl rfl
  split
  · exact .inl rfl
  dsimp only
  split
  · exact .inl rfl
  · exact .inr rfl

theorem startRoadmap_shape (db : DB) (rmid uid : Nat) :
    (startRoadmap db rmid uid).2 = db ∨
    (startRoadmap db rmid uid).2 =
      { db with
          userRoadmaps := db.userRoadmaps ++
            [{ id := db.nextUserRoadmapId, userId := uid, roadmapId := rmid,
               status := "active" }]
          nextUserRoadmapId := db.nextUserRoadmapId + 1
          userTaskProgress := db.userTaskProgress ++
            progressEntries uid db.nextUserRoadmapId db.nextProgressId
              (db.roadmapTasks.filter (fun t => t.roadmapId == rmid))
          nextProgressId := db.nextProgressId +
            (db.roadmapTasks.filter (fun t => t.roadmapId == rmid)).length } := by
  unfold startRoadmap
  split
  · exact .inl rfl
  · exact .inr rfl

theorem updateTaskStatus_shape (db : DB) (pid : Nat) (st : String) :
    (updateTaskStatus db pid st).2 =
      { db with
          userTaskProgress := db.userTaskProgress.map (fun p =>
            if p.id == pid then { p with status := st } else p) } := rfl

/-- Every single operation preserves the normalization invariant. -/
theorem normalized_applyOp (op : Op) (db : DB) (h : Normalized db) :
    Normalized (applyOp op db) := by
  obtain ⟨hcv, hcn, hrq⟩ := h
  have touchConv : ∀ (cid now : Nat),
      (∀ cv ∈ db.conversations.map (fun cv =>
        if cv.id == cid then { cv with lastMessageAt := now } else cv),
        cv.user1Id < cv.user2Id) := by
    intro cid now cv hm
    obtain ⟨cv₀, hcv₀, rfl⟩ := List.mem_map.mp hm
    by_cases hc : (cv₀.id == cid) = true
    · rw [if_pos hc]; exact hcv cv₀ hcv₀
    · rw [if_neg hc]; exact hcv cv₀ hcv₀
  have touchReq : ∀ (rid : Nat) (st : String),
      (∀ r ∈ db.connectionRequests.map (fun q =>
        if q.id == rid then { q with status := st } else q),
        r.senderId ≠ r.receiverId) := by
    intro rid st r hm
    obtain ⟨r₀, hr₀, rfl⟩ := List.mem_map.mp hm
    by_cases hc : (r₀.id == rid) = true
    · rw [if_pos hc]; exact hrq r₀ hr₀
    · rw [if_neg hc]; exact hrq r₀ hr₀
  cases op with
  | opGetOrCreateConversation a b now =>
    show Normalized (getOrCreateConversation db a b now).2
    rcases getOrCreate_shape db a b now with heq | ⟨hab, heq⟩
    · rw [heq]; exact ⟨hcv, hcn, hrq⟩
    · rw [heq]
      refine ⟨?_, hcn, hrq⟩
      intro cv hm
      rcases List.mem_append.mp hm with hm | hm
      · exact hcv cv hm
      · rw [List.mem_singleton.mp hm]
        exact min_lt_max_of_ne hab
  | opSendMessage cid sid c mt now =>
    show Normalized (sendMessage db cid sid c mt now).2
    rcases sendMessage_shape db cid sid c mt now with heq | heq
    · rw [heq]; exact ⟨hcv, hcn, hrq⟩
    · rw [heq]; exact ⟨touchConv cid now, hcn, hrq⟩
  | opSocketSendMessage cid sid c now =>
    show Normalized (socketSendMessage db cid sid c now).2
    rcases socketSendMessage_shape db cid sid c now with heq | heq
    · rw [heq]; exact ⟨hcv, hcn, hrq⟩
    · rw [heq]; exact ⟨touchConv cid now, hcn, hrq⟩
  | opMarkMessagesRead cid uid =>
    show Normalized (markMessagesRead db cid uid).2
    rcases markMessagesRead_shape db cid uid with heq | heq
    · rw [heq]; exact ⟨hcv, hcn, hrq⟩
    · rw [heq]; exact ⟨hcv, hcn, hrq⟩
  | opSendConnectionRequest a b m =>
    show Normalized (sendConnectionRequest db a b m).2
    rcases sendConnectionRequest_shape db a b m with heq | ⟨hab, heq⟩
    · rw [heq]; exact ⟨hcv, hcn, hrq⟩
    · rw [heq]
      refine ⟨hcv, hcn, ?_⟩
      intro r hm
      rcases List.mem_append.mp hm with hm | hm
      · exact hrq r hm
      · rw [List.mem_singleton.mp hm]
        exact hab
  | opAcceptConnectionRequest rid uid =>
    show Normalized (acceptConnectionRequest db rid uid).2
    rcases accept_shape db rid uid with heq | ⟨req, hfind, heq⟩
    · rw [heq]; exact ⟨hcv, hcn, hrq⟩
    · rw [heq]
      refine ⟨hcv, ?_, touchReq rid "accepted"⟩
      intro cn hm
      rcases List.mem_append.mp hm with hm | hm
      · exact hcn cn hm
      · rw [List.mem_singleton.mp hm]
        exact min_lt_max_of_ne (hrq req (List.mem_of_find?_eq_some hfind))
  | opRejectConnectionRequest rid uid =>
    show Normalized (rejectConnectionRequest db rid uid).2
    rcases reject_shape db rid uid with heq | heq
    · rw [heq]; exact ⟨hcv, hcn, hrq⟩
    · rw [heq]; exact ⟨hcv, hcn, touchReq rid "rejected"⟩
  | opDisconnectConnection uid oid =>
    show Normalized (disconnectConnection db uid oid).2
    rcases disconnect_shape db uid oid with heq | heq
    · rw [heq]; exact ⟨hcv, hcn, hrq⟩
    · rw [heq]
      refine ⟨hcv, ?_, hrq⟩
      intro cn hm
      exact hcn cn (List.mem_of_mem_filter hm)
  | opStartRoadmap rmid uid =>
    show Normalized (startRoadmap db rmid uid).2
    rcases startRoadmap_shape db rmid uid with heq | heq
    · rw [heq]; exact ⟨hcv, hcn, hrq⟩
    · rw [heq]; exact ⟨hcv, hcn, hrq⟩
  | opUpdateTaskStatus pid st =>
    show Normalized (updateTaskStatus db pid st).2
    rw [updateTaskStatus_shape]
    exact ⟨hcv, hcn, hrq⟩

/-- C9: every conversation row created by the get-or-create operation and
every connection row created by accepting a request stores the smaller user
id first, and this normalization invariant is preserved by every sequence of
operations of the program: from a normalized state, any fold of operations
reaches only normalized states (the insert cases of the proof show the
created rows are exactly the (min, max)-ordered ones). -/
theorem normalized_preserved (ops : List Op) (db : DB) (h : Normalized db) :
    Normalized (List.foldl (fun d op => applyOp op d) db ops) := by
  induction ops generalizing db with
  | nil => exact h
  | cons op ops ih => exact ih (applyOp op db) (normalized_applyOp op db h)

/-- Witness for C9: the empty database is normalized and stays normalized
through a request, its acceptance, and a conversation creation. -/
theorem normalized_preserved_witness :
    Normalized emptyDB ∧
    Normalized (List.foldl (fun d op => applyOp op d) emptyDB
      [.opSendConnectionRequest 1 2 none, .opAcceptConnectionRequest 1 2,
       .opGetOrCreateConversation 2 1 0]) := by
  have hbase : Normalized emptyDB := by
    unfold Normalized
    refine ⟨?_, ?_, ?_⟩ <;> intro x hx <;> cases hx
  exact ⟨hbase,
    normalized_preserved
      [.opSendConnectionRequest 1 2 none, .opAcceptConnectionRequest 1 2,
       .opGetOrCreateConversation 2 1 0] emptyDB hbase⟩

/-- C10: a login request whose username matches a user whose stored password
is null (a federated, Google-only account) is not answered with the 401
invalid-credentials response: the bcrypt comparison throws on the null hash
and the request falls into the 500 internal-server-error branch, for every
possible hash-checking function. -/
theorem login_null_password_500 (check : String → String → Bool) (db : DB)
    (username password : String) (u : User)
    (hu : username ≠ "") (hp : password ≠ "")
    (hfind : db.users.find? (fun x => x.username == some username) = some u)
    (hnull : u.password = none) :
    login check db username password = 500 ∧
    login check db username password ≠ 401 := by
  have h1 : (username == "" || password == "") = false := by simp [hu, hp]
  have h500 : login check db username password = 500 := by
    unfold login
    simp only [h1, Bool.false_eq_true, if_false, hfind]
    unfold bcryptCompare
    rw [hnull]
  exact ⟨h500, by rw [h500]; decide⟩

/-- Witness for C10: the fixture Google-only account bob has a null password
and local login yields 500. -/
theorem login_null_password_500_witness :
    (pendingRequestDB.users.find? (fun x => x.username == some "bob") =
      some bobUser) ∧
    bobUser.password = none ∧
    (login (fun _ _ => false) pendingRequestDB "bob" "secret" = 500 ∧
     login (fun _ _ => false) pendingRequestDB "bob" "secret" ≠ 401) :=
  ⟨by decide, by decide,
    login_null_password_500 (fun _ _ => false) pendingRequestDB "bob" "secret" bobUser
      (by decide) (by decide) (by decide) (by decide)⟩

end MySkl
